import Mathlib

/-!
Verification of the tagit metadata tool: a shallow embedding of the
dispatch, extraction, formatting and update functions of `app.py`,
`metadata_utils.py` and `office_metadata.py`, together with theorems
settling the frozen claims about them.

Conventions of the embedding:
* Python dictionaries become association lists (`aget` / `aset` mirror
  `d[k]` lookup and `d[k] = v` assignment, which replaces in place or
  appends at the end, preserving insertion order).
* Python exceptions become `Except String`: an `Except.error` escaping a
  function models an exception propagating past that function.
* Calls into external libraries (PIL, pdfrw, piexif, MediaInfo,
  python-docx, python-pptx) whose outcome depends on the actual file
  bytes are parameters of type `Except String _`: the caller of the
  model supplies the outcome the library produced.
-/

namespace TagIt

/-- A Python value as it appears in metadata dictionaries: strings,
integers, tuples/lists, nested dictionaries and `None`. -/
inductive MVal where
  | str (s : String)
  | int (n : Int)
  | tup (xs : List MVal)
  | dict (entries : List (String × MVal))
  | null

/-- Python truthiness of an `MVal` (`if value:`): empty strings, zero,
empty tuples, empty dicts and `None` are falsy. -/
def MVal.truthy : MVal → Bool
  | .str s => s != ""
  | .int n => n != 0
  | .tup xs => !xs.isEmpty
  | .dict e => !e.isEmpty
  | .null => false

/-- Python `str()` applied to a metadata value.  The rendering of
composite values is abstracted (no claim depends on it). -/
def MVal.pystr : MVal → String
  | .str s => s
  | .int n => toString n
  | .tup _ => "(tuple)"
  | .dict _ => "(dict)"
  | .null => "None"

/-- Dictionary lookup `d.get(k)` on an association list. -/
def aget {κ α : Type} [DecidableEq κ] : List (κ × α) → κ → Option α
  | [], _ => none
  | (k', v) :: rest, k => if k' = k then some v else aget rest k

/-- Dictionary assignment `d[k] = v`: replaces the value in place if the
key is present, otherwise appends the new binding at the end (Python
dicts preserve insertion order). -/
def aset {κ α : Type} [DecidableEq κ] : List (κ × α) → κ → α → List (κ × α)
  | [], k, v => [(k, v)]
  | (k', v') :: rest, k, v => if k' = k then (k, v) :: rest else (k', v') :: aset rest k v

@[simp] theorem aget_nil {κ α : Type} [DecidableEq κ] (k : κ) :
    aget ([] : List (κ × α)) k = none := rfl

@[simp] theorem aget_cons {κ α : Type} [DecidableEq κ] (k' k : κ) (v : α) (rest) :
    aget ((k', v) :: rest) k = if k' = k then some v else aget rest k := rfl

@[simp] theorem aget_aset_self {κ α : Type} [DecidableEq κ] (m : List (κ × α)) (k : κ) (v : α) :
    aget (aset m k v) k = some v := by
  induction m with
  | nil => simp [aset]
  | cons h rest ih =>
    obtain ⟨k', v'⟩ := h
    by_cases hk : k' = k <;> simp [aset, hk, ih]

theorem aget_aset_ne {κ α : Type} [DecidableEq κ] (m : List (κ × α)) (k k' : κ) (v : α)
    (h : k ≠ k') : aget (aset m k v) k' = aget m k' := by
  induction m with
  | nil => simp [aset, h]
  | cons hd rest ih =>
    obtain ⟨k'', v''⟩ := hd
    by_cases hk : k'' = k
    · subst hk
      simp [aset, h]
    · simp [aset, hk, ih]

theorem aget_isSome_iff_mem {κ α : Type} [DecidableEq κ] (m : List (κ × α)) (k : κ) :
    (aget m k).isSome = true ↔ k ∈ m.map Prod.fst := by
  induction m with
  | nil => simp
  | cons hd rest ih =>
    obtain ⟨k', v'⟩ := hd
    by_cases hk : k' = k
    · subst hk
      simp
    · simp only [aget_cons, if_neg hk, ih, List.map_cons, List.mem_cons]
      constructor
      · intro h
        exact Or.inr h
      · rintro (h | h)
        · exact absurd h.symm hk
        · exact h

theorem map_fst_aset {κ α : Type} [DecidableEq κ] (m : List (κ × α)) (k : κ) (v : α) :
    (aset m k v).map Prod.fst =
      if k ∈ m.map Prod.fst then m.map Prod.fst else m.map Prod.fst ++ [k] := by
  induction m with
  | nil => simp [aset]
  | cons hd rest ih =>
    obtain ⟨k', v'⟩ := hd
    by_cases hk : k' = k
    · subst hk
      simp [aset]
    · have hne : ¬ k = k' := fun h => hk h.symm
      by_cases hmem : k ∈ rest.map Prod.fst <;> simp [aset, hk, ih, hne, hmem]

/-! ## Dispatcher (`app.py`, lines 44–59)

The app lowercases the uploaded file's name and selects the handling
branch purely by `str.endswith` checks on the extension; the declared
MIME type is never consulted (the MIME-based `get_file_type` below is
imported by `app.py` but never called).  Filenames are modeled as lists
of characters. -/

/-- The five format adapters of the system. -/
inductive Adapter where
  | image | pdf | docx | pptx | video
deriving DecidableEq

/-- File-type tag computed by the dispatch in `app.py`. -/
inductive FType where
  | image | pdf | docx | pptx | video | unsupported
deriving DecidableEq

/-- `name.endswith(suffix)` on character lists. -/
def pyEndsWith (name : List Char) (suffix : List Char) : Bool :=
  suffix.isSuffixOf name

/-- `str.lower()` modeled characterwise. -/
def pyLower (s : List Char) : List Char := s.map Char.toLower

/-- `file_name.endswith(('.jpg', '.jpeg', '.png'))` … dispatch chain of
`app.py` lines 48–59, applied to the lowercased name. -/
def file_type (fileName : List Char) : FType :=
  let n := pyLower fileName
  if pyEndsWith n ['.', 'j', 'p', 'g'] || pyEndsWith n ['.', 'j', 'p', 'e', 'g'] ||
      pyEndsWith n ['.', 'p', 'n', 'g'] then .image
  else if pyEndsWith n ['.', 'p', 'd', 'f'] then .pdf
  else if pyEndsWith n ['.', 'd', 'o', 'c', 'x'] then .docx
  else if pyEndsWith n ['.', 'p', 'p', 't', 'x'] then .pptx
  else if pyEndsWith n ['.', 'm', 'p', '4'] || pyEndsWith n ['.', 'm', 'o', 'v'] ||
      pyEndsWith n ['.', 'a', 'v', 'i'] then .video
  else .unsupported

/-- The adapter invoked for each file type; `unsupported` invokes none
(the app's final `else` branch only reports an error). -/
def adapterOf : FType → Option Adapter
  | .image => some .image
  | .pdf => some .pdf
  | .docx => some .docx
  | .pptx => some .pptx
  | .video => some .video
  | .unsupported => none

/-- Adapter selection as performed by `app.py`: extension dispatch, then
the branch's adapter. -/
def dispatch (fileName : List Char) : Option Adapter :=
  adapterOf (file_type fileName)

/-- `get_file_type` of `metadata_utils.py` (lines 13–21): a MIME-based
classifier.  It is imported by `app.py` but never called; the dispatch
above never consults it. -/
def get_file_type (mimeType : String) : FType :=
  if mimeType.startsWith "image/" then .image
  else if mimeType = "application/pdf" then .pdf
  else if mimeType.startsWith "video/" then .video
  else .unsupported

/-- Characters of the extension, reading the reversed name up to the
first dot: `revExt r = some e` iff `r = e ++ dot ++ rest`. -/
def revExt : List Char → Option (List Char)
  | [] => none
  | c :: r => if c = '.' then some [] else (revExt r).map (c :: ·)

/-- The filename extension: the segment after the last dot, if any. -/
def extOf (name : List Char) : Option (List Char) :=
  (revExt name.reverse).map List.reverse

/-- Modelled from the spec (§4.1): adapter selection by the extension
table {jpg,jpeg,png → Image; pdf → PDF; docx → DOCX; pptx → PPTX;
mp4,mov,avi → Video}, anything else `UnsupportedType` (no adapter). -/
def extTable (e : List Char) : Option Adapter :=
  if e = ['j', 'p', 'g'] ∨ e = ['j', 'p', 'e', 'g'] ∨ e = ['p', 'n', 'g'] then some .image
  else if e = ['p', 'd', 'f'] then some .pdf
  else if e = ['d', 'o', 'c', 'x'] then some .docx
  else if e = ['p', 'p', 't', 'x'] then some .pptx
  else if e = ['m', 'p', '4'] ∨ e = ['m', 'o', 'v'] ∨ e = ['a', 'v', 'i'] then some .video
  else none

/-- Modelled from the spec (§4.1): `selectAdapter(filename)` looks up
the lowercased filename's extension in the extension table. -/
def selectAdapter_spec (fileName : List Char) : Option Adapter :=
  match extOf (pyLower fileName) with
  | some e => extTable e
  | none => none

theorem isPrefixOf_dot_iff (l r : List Char) (hl : '.' ∉ l) :
    (l ++ ['.']).isPrefixOf r = true ↔ revExt r = some l := by
  induction l generalizing r with
  | nil =>
    cases r with
    | nil => simp [List.isPrefixOf, revExt]
    | cons c r' =>
      by_cases hc : c = '.'
      · subst hc
        simp [List.isPrefixOf, revExt]
      · simp [List.isPrefixOf, revExt, hc, Ne.symm hc]
  | cons a l' ih =>
    have ha : a ≠ '.' := by
      intro h
      exact hl (h ▸ List.mem_cons_self a l')
    have hl' : '.' ∉ l' := fun h => hl (List.mem_cons_of_mem a h)
    cases r with
    | nil => simp [List.isPrefixOf, revExt]
    | cons c r' =>
      by_cases hc : c = '.'
      · subst hc
        simp only [List.cons_append, List.isPrefixOf, Bool.and_eq_true, beq_iff_eq,
          revExt, if_pos rfl]
        constructor
        · rintro ⟨h, _⟩
          exact absurd h ha
        · intro h
          simp at h
      · simp only [List.cons_append, List.isPrefixOf, Bool.and_eq_true, beq_iff_eq,
          revExt, if_neg hc]
        constructor
        · rintro ⟨rfl, hp⟩
          rw [(ih r' hl').mp hp]
          rfl
        · intro h
          cases hrev : revExt r' with
          | none => simp [hrev] at h
          | some l'' =>
            simp only [hrev, Option.map_some, Option.some.injEq, List.cons.injEq] at h
            obtain ⟨rfl, rfl⟩ := h
            exact ⟨rfl, (ih r' hl').mpr hrev⟩

/-- A dot-free suffix check `name.endswith('.' + e)` succeeds exactly
when the extension of `name` is `e`. -/
theorem pyEndsWith_extOf (e : List Char) (he : '.' ∉ e) (n : List Char) :
    pyEndsWith n ('.' :: e) = true ↔ extOf n = some e := by
  have hrev : ('.' :: e).reverse = e.reverse ++ ['.'] := by
    simp
  have hmem : '.' ∉ e.reverse := by
    simpa using he
  unfold pyEndsWith List.isSuffixOf
  rw [hrev, isPrefixOf_dot_iff e.reverse n.reverse hmem]
  unfold extOf
  cases hx : revExt n.reverse with
  | none => simp [hx]
  | some l =>
    simp only [hx, Option.map_some, Option.map_some', Option.some.injEq]
    constructor
    · rintro rfl
      simp
    · intro h
      rw [← h, List.reverse_reverse]

theorem pyEndsWith_ext (e : List Char) (he : '.' ∉ e) (n : List Char) :
    pyEndsWith n ('.' :: e) = decide (extOf n = some e) := by
  by_cases h : extOf n = some e
  · rw [decide_eq_true h]
    exact (pyEndsWith_extOf e he n).mpr h
  · rw [decide_eq_false h, ← Bool.not_eq_true]
    exact fun hc => h ((pyEndsWith_extOf e he n).mp hc)

/-- C4: adapter selection is a function of the filename alone and agrees
everywhere with the spec's extension table — lowercased extension jpg,
jpeg, png select the Image adapter, pdf the PDF adapter, docx DOCX, pptx
PPTX, mp4, mov, avi Video, and any other filename selects no adapter at
all (`UnsupportedType`); the MIME-based `get_file_type` is never
consulted. -/
theorem C4_dispatch_by_extension_only :
    ∀ fileName : List Char, dispatch fileName = selectAdapter_spec fileName := by
  intro fileName
  have h1 := pyEndsWith_ext ['j', 'p', 'g'] (by decide) (pyLower fileName)
  have h2 := pyEndsWith_ext ['j', 'p', 'e', 'g'] (by decide) (pyLower fileName)
  have h3 := pyEndsWith_ext ['p', 'n', 'g'] (by decide) (pyLower fileName)
  have h4 := pyEndsWith_ext ['p', 'd', 'f'] (by decide) (pyLower fileName)
  have h5 := pyEndsWith_ext ['d', 'o', 'c', 'x'] (by decide) (pyLower fileName)
  have h6 := pyEndsWith_ext ['p', 'p', 't', 'x'] (by decide) (pyLower fileName)
  have h7 := pyEndsWith_ext ['m', 'p', '4'] (by decide) (pyLower fileName)
  have h8 := pyEndsWith_ext ['m', 'o', 'v'] (by decide) (pyLower fileName)
  have h9 := pyEndsWith_ext ['a', 'v', 'i'] (by decide) (pyLower fileName)
  simp only [dispatch, file_type, selectAdapter_spec, h1, h2, h3, h4, h5, h6, h7, h8, h9]
  cases hx : extOf (pyLower fileName) with
  | none => simp [adapterOf]
  | some e =>
    simp only [Option.some.injEq]
    by_cases e1 : e = ['j', 'p', 'g']
    · simp [e1, extTable, adapterOf]
    · by_cases e2 : e = ['j', 'p', 'e', 'g']
      · simp [e2, extTable, adapterOf]
      · by_cases e3 : e = ['p', 'n', 'g']
        · simp [e3, extTable, adapterOf]
        · by_cases e4 : e = ['p', 'd', 'f']
          · simp [e4, extTable, adapterOf]
          · by_cases e5 : e = ['d', 'o', 'c', 'x']
            · simp [e5, extTable, adapterOf]
            · by_cases e6 : e = ['p', 'p', 't', 'x']
              · simp [e6, extTable, adapterOf]
              · by_cases e7 : e = ['m', 'p', '4']
                · simp [e7, extTable, adapterOf]
                · by_cases e8 : e = ['m', 'o', 'v']
                  · simp [e8, extTable, adapterOf]
                  · by_cases e9 : e = ['a', 'v', 'i']
                    · simp [e9, extTable, adapterOf]
                    · simp [e1, e2, e3, e4, e5, e6, e7, e8, e9, extTable, adapterOf]

/-! ## Image extraction (`metadata_utils.py`, lines 24–45)

`Image.open` / `img._getexif()` are a library call whose outcome is a
parameter: either an exception, or the image's data.  The tag-id to
tag-name translation through the library's `TAGS` / `GPSTAGS` tables is
a pure renaming and is absorbed into the parse outcome, whose `exif`
field is the already-named EXIF dictionary (with the `GPSInfo` entry a
nested dictionary).  Note the function body has no `try`/`except`. -/

/-- Outcome of `Image.open(...)` + `img._getexif()`. -/
structure ImgData where
  exif : List (String × MVal)
  format : String
  mode : String
  size : MVal

/-- `extract_image_metadata`: on a successful parse, the named EXIF
dictionary, or the Format/Mode/Size fallback when no EXIF data exists;
a library exception propagates to the caller (no handler exists). -/
def extract_image_metadata (img : Except String ImgData) :
    Except String (List (String × MVal)) :=
  match img with
  | .error e => .error e
  | .ok d =>
    if d.exif.isEmpty then
      .ok [("Format", .str d.format), ("Mode", .str d.mode), ("Size", d.size)]
    else
      .ok d.exif

/-! ## `format_metadata` and `parse_gps` (`metadata_utils.py`, lines 48–87) -/

/-- `raw_metadata.get(key)` (default `None`). -/
def pyGet (m : List (String × MVal)) (k : String) : MVal :=
  (aget m k).getD .null

/-- `raw_metadata.get(key, default)`. -/
def pyGetD (m : List (String × MVal)) (k : String) (d : MVal) : MVal :=
  (aget m k).getD d

/-- Python subscripting `v[k]` with a string key: a `KeyError` on a
missing dictionary key, a `TypeError` on a non-dictionary value. -/
def subscriptStr (v : MVal) (k : String) : Except String MVal :=
  match v with
  | .dict e =>
    match aget e k with
    | some x => .ok x
    | none => .error ("KeyError: " ++ k)
  | _ => .error "TypeError: value is not subscriptable by a string key"

/-- Python subscripting `v[i]` with an integer index. -/
def subscriptIdx (v : MVal) (i : Nat) : Except String MVal :=
  match v with
  | .tup xs =>
    match xs.get? i with
    | some x => .ok x
    | none => .error "IndexError: tuple index out of range"
  | _ => .error "TypeError: value is not subscriptable by an index"

/-- The value groups produced by `format_metadata`. -/
inductive FmtGroup where
  | fields (fs : List (String × MVal))
  | gps (g : List (String × String))
  | noneG

/-- `parse_gps` (lines 79–87): `None` on a falsy argument, otherwise the
human-readable coordinate dictionary; a missing `GPSLatitude` etc. key
raises a `KeyError` that propagates (there is no handler). -/
def parse_gps (gps : MVal) : Except String (Option (List (String × String))) :=
  if gps.truthy = false then .ok none
  else do
    let lat ← subscriptStr gps "GPSLatitude"
    let lat0 ← subscriptIdx lat 0
    let lat1 ← subscriptIdx lat 1
    let lat2 ← subscriptIdx lat 2
    let latRef ← subscriptStr gps "GPSLatitudeRef"
    let lon ← subscriptStr gps "GPSLongitude"
    let lon0 ← subscriptIdx lon 0
    let lon1 ← subscriptIdx lon 1
    let lon2 ← subscriptIdx lon 2
    let lonRef ← subscriptStr gps "GPSLongitudeRef"
    let ts ← subscriptStr gps "GPSTimeStamp"
    let ts0 ← subscriptIdx ts 0
    let ts1 ← subscriptIdx ts 1
    let ts2 ← subscriptIdx ts 2
    .ok (some
      [("GPSLatitude", lat0.pystr ++ "° " ++ lat1.pystr ++ "\x27 " ++
          lat2.pystr ++ "\" " ++ latRef.pystr),
       ("GPSLongitude", lon0.pystr ++ "° " ++ lon1.pystr ++ "\x27 " ++
          lon2.pystr ++ "\" " ++ lonRef.pystr),
       ("GPSTimeStamp", ts0.pystr ++ ":" ++ ts1.pystr ++ ":" ++ ts2.pystr ++ " UTC")])

/-- The five keys whose truthiness selects the EXIF branch of
`format_metadata`. -/
def basicKeys : List String :=
  ["Make", "Model", "Software", "DateTime", "DateTimeOriginal"]

/-- `any(raw_metadata.get(key) for key in [...])`. -/
def anyBasicTruthy (raw : List (String × MVal)) : Bool :=
  basicKeys.any fun k => (pyGet raw k).truthy

/-- `format_metadata` (lines 48–76): the two-group structured
dictionary; an exception out of `parse_gps` propagates (no handler). -/
def format_metadata (raw : List (String × MVal)) :
    Except String (List (String × FmtGroup)) :=
  if anyBasicTruthy raw then
    match parse_gps (pyGetD raw "GPSInfo" (.dict [])) with
    | .error e => .error e
    | .ok og =>
      .ok [("Basic Info", .fields
              [("Make", pyGet raw "Make"), ("Model", pyGet raw "Model"),
               ("Software", pyGet raw "Software"), ("DateTime", pyGet raw "DateTime"),
               ("DateTimeOriginal", pyGet raw "DateTimeOriginal")]),
           ("GPS Info", match og with
                        | some g => .gps g
                        | none => .noneG)]
  else
    let sizeStr : MVal :=
      match pyGet raw "Size" with
      | .tup [a, b] => .str (a.pystr ++ " x " ++ b.pystr)
      | _ => .null
    .ok [("Basic Info", .fields
            [("Format", pyGet raw "Format"), ("Mode", pyGet raw "Mode"),
             ("Size", sizeStr)]),
         ("GPS Info", .noneG)]

/-! ## PDF extraction (`metadata_utils.py`, lines 90–136) -/

/-- Outcome of `pdfrw.PdfReader` on the uploaded file. -/
structure PdfParse where
  info : Option (List (String × MVal))
  version : String
  pageCount : Nat

/-- `clean_pdf_value` (lines 113–136): `None` becomes the empty string,
decoded strings stay strings (the UTF-8 / Latin-1 decode fallbacks live
inside the external `PdfString.decode` and are absorbed into `.str`),
iterables are rendered as a bracketed textual list (one level deep, as a
display-only rendering), anything else is stringified. -/
def clean_pdf_value (v : MVal) : String :=
  match v with
  | .null => ""
  | .str s => s
  | .int n => toString n
  | .dict _ => "(dict)"
  | .tup xs => "[" ++ String.intercalate ", " (xs.map MVal.pystr) ++ "]"

/-- `key.lstrip('/')`. -/
def stripSlash (k : String) : String :=
  String.mk (k.toList.dropWhile (· = '/'))

/-- `extract_pdf_metadata` (lines 90–110): builds the cleaned info
dictionary plus the derived `PDFVersion` / `PageCount` / `ExtractedAt`
fields; any parse exception is caught and returned as an `Error`-only
record. -/
def extract_pdf_metadata (parse : Except String PdfParse) (nowStr : String) :
    List (String × String) :=
  match parse with
  | .error e => [("Error", "Failed to read PDF metadata: " ++ e)]
  | .ok p =>
    let base := (p.info.getD []).foldl
      (fun m kv => aset m (stripSlash kv.1) (clean_pdf_value kv.2)) []
    aset (aset (aset base "PDFVersion" p.version)
        "PageCount" (toString p.pageCount)) "ExtractedAt" nowStr

/-! ## PDF update (`metadata_utils.py`, lines 139–170)

The function stages the upload in a temp file, parses it, writes the
non-blank changes into `pdf.Info`, serializes to `modified_<name>`,
re-reads that output and checks that every changed key is present.  A
verification miss raises, and the handler unlinks only the staging temp
before re-raising — the written output file is left behind.  The model
records, besides the returned value (a path, or a raised exception),
whether the staging temp and the output file still exist on return, and
the info dictionary of the written output. -/

structure PdfUpdateOut where
  result : Except String String
  tmpRemains : Bool
  outRemains : Bool
  written : Option (List (String × String))

/-- Python `str.strip()`: leading and trailing whitespace removed. -/
def pyStrip (s : String) : String :=
  String.mk (((s.data.dropWhile Char.isWhitespace).reverse.dropWhile
    Char.isWhitespace).reverse)

/-- The info dictionary after applying the changes: missing `pdf.Info`
is replaced by an empty dictionary, and each change whose value is
truthy with a non-blank `strip()` is written. -/
def pdfApplied (info0 : Option (List (String × String)))
    (changes : List (String × String)) : List (String × String) :=
  changes.foldl
    (fun m kv => if kv.2 != "" && pyStrip kv.2 != "" then aset m kv.1 kv.2 else m)
    (info0.getD [])

/-- `update_pdf_metadata` (lines 139–170).  `parse` is the outcome of
`pdfrw.PdfReader` on the staged copy; serialization and the re-read of
the output are modeled as faithful (the re-read sees the written info
dictionary).  On the success path the temp is unlinked and the output
path returned; on any exception the handler unlinks the temp (it exists
by then) and re-raises `Failed to update PDF: ...`. -/
def update_pdf_metadata (parse : Except String (Option (List (String × String))))
    (changes : List (String × String)) (fileName : String) : PdfUpdateOut :=
  match parse with
  | .error e =>
    { result := .error ("Failed to update PDF: " ++ e)
      tmpRemains := false
      outRemains := false
      written := none }
  | .ok info0 =>
    let info := pdfApplied info0 changes
    if changes.all fun kv => (aget info kv.1).isSome then
      { result := .ok ("modified_" ++ fileName)
        tmpRemains := false
        outRemains := true
        written := some info }
    else
      { result := .error "Failed to update PDF: Metadata update verification failed"
        tmpRemains := false
        outRemains := true
        written := some info }

/-! ## Video extraction (`metadata_utils.py`, lines 173–194)

The upload is staged to a temp file, `MediaInfo.parse` probes it, the
temp is unlinked, and then the per-track groups are built.  The
`except` handler returns an `Error`-only record but does **not** unlink
the temp, so a probe exception leaves the staged file behind; the model
returns the metadata together with whether the temp file still exists
after the call. -/

/-- One track as reported by the probe. -/
structure Track where
  track_type : String
  fields : List (String × MVal)

/-- Video extraction result: per-track-type groups, or the
`Error`-record of the handler. -/
inductive VMeta where
  | groups (m : List (String × List (String × MVal)))
  | errorRec (msg : String)

/-- `extract_video_metadata` (lines 173–194).  Groups are keyed by
`track.track_type`, so a later track of the same type overwrites an
earlier one; each group keeps only the truthy field values.  The
returned `Bool` is true when the staged temp file outlives the call. -/
def extract_video_metadata (probe : Except String (List Track)) : VMeta × Bool :=
  match probe with
  | .error e => (.errorRec ("Failed to extract video metadata: " ++ e), true)
  | .ok tracks =>
    (.groups (tracks.foldl
        (fun m t => aset m t.track_type (t.fields.filter fun f => f.2.truthy)) []),
     false)

/-! ## Image update (`metadata_utils.py`, lines 197–250) -/

/-- The EXIF structure manipulated through `piexif`: the primary-image
(0th) IFD and the capture-time (Exif) IFD, each a mapping from numeric
tag to raw bytes.  (The GPS, 1st and thumbnail sections are never
touched by the code and are omitted.) -/
structure ExifDict where
  zeroth : List (Nat × List UInt8)
  exifIFD : List (Nat × List UInt8)

/-- The `tag_map` of `update_image_metadata` (lines 214–223), with the
numeric values of the `piexif.ImageIFD` / `piexif.ExifIFD` constants. -/
def tag_map : List (String × Nat) :=
  [("Make", 271), ("Model", 272), ("Software", 305), ("DateTime", 306),
   ("DateTimeOriginal", 36867), ("Artist", 315), ("Copyright", 33432),
   ("ImageDescription", 270)]

/-- `value.encode('utf-8')`. -/
def utf8 (s : String) : List UInt8 := s.toUTF8.toList

/-- One iteration of the change-application loop (lines 226–232): a
truthy value whose key is in `tag_map` is encoded as UTF-8 bytes and
stored — `DateTimeOriginal` in the Exif IFD, every other key in the 0th
IFD; anything else is skipped. -/
def stepExif (acc : ExifDict) (kv : String × String) : ExifDict :=
  if kv.2 != "" then
    match aget tag_map kv.1 with
    | some tag =>
      if kv.1 = "DateTimeOriginal" then
        { acc with exifIFD := aset acc.exifIFD tag (utf8 kv.2) }
      else
        { acc with zeroth := aset acc.zeroth tag (utf8 kv.2) }
    | none => acc
  else acc

/-- The change-application loop of `update_image_metadata`. -/
def applyExifChanges (d : ExifDict) (changes : List (String × String)) : ExifDict :=
  changes.foldl stepExif d

/-- `update_image_metadata` (lines 197–250).  `load` is the outcome of
`piexif.load` on the staged input copy, `insertRes` the outcome of
`piexif.dump` + `piexif.insert` into the output temp.  On success the
path of the output temp and the written EXIF structure are returned; on
any library exception the handler removes the temps and re-raises
`Failed to update image metadata: ...`. -/
def update_image_metadata (load : Except String ExifDict)
    (insertRes : Except String Unit) (changes : List (String × String)) :
    Except String (String × ExifDict) :=
  match load with
  | .error e => .error ("Failed to update image metadata: " ++ e)
  | .ok d =>
    match insertRes with
    | .error e => .error ("Failed to update image metadata: " ++ e)
    | .ok _ => .ok ("tmp_out", applyExifChanges d changes)

/-! ## Office documents (`office_metadata.py`)

A `core_properties` object is modeled as an association list from
attribute name to the stringified attribute value (the verification
loops compare `str(...)` forms); `getattr(props, key, '')` reads with
default `''`, `hasattr(props, key)` tests membership in the settable
core-property attribute set declared by the library. -/

/-- The core-property attributes of python-docx / python-pptx
`CoreProperties` read and written by the code. -/
def coreAttrNames : List String :=
  ["title", "author", "subject", "keywords", "comments", "last_modified_by",
   "created", "modified", "category", "content_status", "identifier",
   "language", "revision", "version"]

/-- A core-properties object: stringified attribute values. -/
abbrev Props := List (String × String)

/-- `str(getattr(props, key, ''))`. -/
def pyGetattrD (p : Props) (k : String) : String :=
  (aget p k).getD ""

/-- The change-application loop of `update_docx_metadata` /
`update_pptx_metadata`: `if hasattr(props, key): setattr(props, key,
value)` — no blank check, a blank value is written like any other. -/
def applyCoreChanges (p : Props) (changes : List (String × String)) : Props :=
  changes.foldl
    (fun acc kv => if kv.1 ∈ coreAttrNames then aset acc kv.1 kv.2 else acc) p

/-- The post-save verification loop: for each changed key, compare the
re-read stringified attribute (default `''`) with the requested value
and raise `ValueError(f"Failed to update {key}")` on the first
mismatch. -/
def officeVerify (updated : Props) (changes : List (String × String)) :
    Except String Unit :=
  match changes with
  | [] => .ok ()
  | (k, v) :: rest =>
    if pyGetattrD updated k ≠ v then .error ("Failed to update " ++ k)
    else officeVerify updated rest

/-- Result of a DOCX/PPTX update: a path, or the `Error`-record the
handler builds — never a raised exception. -/
inductive OfficeResult where
  | path (p : String)
  | errorRec (msg : String)

/-- Observable outcome of a DOCX/PPTX update call: the returned value,
whether the `modified_` output copy still exists, and the saved
core properties of that copy when it does. -/
structure OfficeOut where
  result : OfficeResult
  outRemains : Bool
  saved : Option Props

/-- The `try`-block of `update_docx_metadata` (lines 41–70): copy the
input, apply the changes, stamp `props.modified = datetime.now()`, save,
reopen, verify.  `docOpen` is the outcome of `Document(...)` on the
copy.  Errors are the exceptions the block raises. -/
def update_docx_core (docOpen : Except String Unit) (p : Props)
    (changes : List (String × String)) (now : String) (name : String) :
    Except String (String × Props) :=
  match docOpen with
  | .error e => .error e
  | .ok _ =>
    let p2 := aset (applyCoreChanges p changes) "modified" now
    match officeVerify p2 changes with
    | .error e => .error e
    | .ok _ => .ok ("modified_" ++ name, p2)

/-- `update_docx_metadata` (lines 39–76): the `except` handler removes
the output copy and converts any exception into an `Error` record. -/
def update_docx_metadata (docOpen : Except String Unit) (p : Props)
    (changes : List (String × String)) (now : String) (name : String) : OfficeOut :=
  match update_docx_core docOpen p changes now name with
  | .ok (pth, p2) => { result := .path pth, outRemains := true, saved := some p2 }
  | .error e =>
    { result := .errorRec ("DOCX Update Error: " ++ e)
      outRemains := false
      saved := none }

/-- The `try`-block of `update_pptx_metadata` (lines 112–141), symmetric
to the DOCX one. -/
def update_pptx_core (prsOpen : Except String Unit) (p : Props)
    (changes : List (String × String)) (now : String) (name : String) :
    Except String (String × Props) :=
  match prsOpen with
  | .error e => .error e
  | .ok _ =>
    let p2 := aset (applyCoreChanges p changes) "modified" now
    match officeVerify p2 changes with
    | .error e => .error e
    | .ok _ => .ok ("modified_" ++ name, p2)

/-- `update_pptx_metadata` (lines 110–147). -/
def update_pptx_metadata (prsOpen : Except String Unit) (p : Props)
    (changes : List (String × String)) (now : String) (name : String) : OfficeOut :=
  match update_pptx_core prsOpen p changes now name with
  | .ok (pth, p2) => { result := .path pth, outRemains := true, saved := some p2 }
  | .error e =>
    { result := .errorRec ("PPTX Update Error: " ++ e)
      outRemains := false
      saved := none }

/-- Outcome of `Document(file_path)` for DOCX extraction. -/
structure DocxData where
  props : Props
  paragraphs : Nat
  tables : Nat
  sections : Nat

/-- Outcome of `Presentation(file_path)` for PPTX extraction. -/
structure PptxData where
  props : Props
  slides : Nat
  notesSlides : Nat
  masters : Nat

/-- Office extraction result: the CoreProperties group and the
statistics group, or an `Error`-only record. -/
inductive OfficeMeta where
  | record (core : List (String × String)) (stats : List (String × Nat))
  | errorRec (msg : String)

/-- The CoreProperties group read by both extractors: each property
`props.x or ''` (our stringified model reads with default `''`). -/
def corePropsGroup (p : Props) : List (String × String) :=
  coreAttrNames.map fun k => (k, pyGetattrD p k)

/-- `extract_docx_metadata` (lines 7–37): any exception is caught and
returned as an `Error`-only record. -/
def extract_docx_metadata (parse : Except String DocxData) : OfficeMeta :=
  match parse with
  | .error e => .errorRec ("DOCX Metadata Error: " ++ e)
  | .ok d =>
    .record (corePropsGroup d.props)
      [("paragraph_count", d.paragraphs), ("tables_count", d.tables),
       ("sections_count", d.sections)]

/-- `extract_pptx_metadata` (lines 78–108). -/
def extract_pptx_metadata (parse : Except String PptxData) : OfficeMeta :=
  match parse with
  | .error e => .errorRec ("PPTX Metadata Error: " ++ e)
  | .ok d =>
    .record (corePropsGroup d.props)
      [("slide_count", d.slides), ("notes_slide_count", d.notesSlides),
       ("master_slide_count", d.masters)]

/-! ## Claim theorems -/

/-- C1 counterexample: the Image adapter's `extract_image_metadata` has
no exception handler — a parse exception propagates past the adapter
boundary instead of being returned as an `Error`-only record, refuting
the claim for the Image adapter. -/
theorem C1_counterexample :
    extract_image_metadata (.error "cannot identify image file") =
      .error "cannot identify image file" := rfl

/-- C1 (amended): for the PDF, Video, DOCX and PPTX adapters, every
parse exception is caught inside extract and returned as a record whose
sole content is an `Error` field; the Image adapter's extract has no
handler and lets the exception propagate. -/
theorem C1_extract_error_policy :
    ∀ e nowStr : String,
      extract_pdf_metadata (.error e) nowStr =
        [("Error", "Failed to read PDF metadata: " ++ e)] ∧
      (extract_video_metadata (.error e)).1 =
        .errorRec ("Failed to extract video metadata: " ++ e) ∧
      extract_docx_metadata (.error e) = .errorRec ("DOCX Metadata Error: " ++ e) ∧
      extract_pptx_metadata (.error e) = .errorRec ("PPTX Metadata Error: " ++ e) :=
  fun _ _ => ⟨rfl, rfl, rfl, rfl⟩

/-- C2 counterexample: when parsing the staged copy fails, the PDF
update re-raises a raw exception (`raise Exception(f"Failed to update
PDF: ...")`) rather than returning a typed error value, refuting the
claim for the PDF adapter. -/
theorem C2_counterexample :
    (update_pdf_metadata (.error "bad trailer") [("Title", "T")] "a.pdf").result =
      .error "Failed to update PDF: bad trailer" := rfl

/-- C2 (amended): DOCX and PPTX apply failures are caught at the
adapter boundary and returned as `Error` records; the PDF and Image
updates instead re-raise a raw exception on failure, which their
callers must catch. -/
theorem C2_apply_failure_policy :
    ∀ (e : String) (changes : List (String × String)) (name now : String)
      (p : Props) (ins : Except String Unit),
      (update_pdf_metadata (.error e) changes name).result =
        .error ("Failed to update PDF: " ++ e) ∧
      update_image_metadata (.error e) ins changes =
        .error ("Failed to update image metadata: " ++ e) ∧
      (update_docx_metadata (.error e) p changes now name).result =
        .errorRec ("DOCX Update Error: " ++ e) ∧
      (update_pptx_metadata (.error e) p changes now name).result =
        .errorRec ("PPTX Update Error: " ++ e) :=
  fun _ _ _ _ _ _ => ⟨rfl, rfl, rfl, rfl⟩

/-- C5 counterexample: when the probe raises, the video extract's
`except` handler returns the `Error` record without unlinking the
staged temp file, which therefore outlives the adapter call, refuting
the claim for the Video adapter. -/
theorem C5_counterexample :
    (extract_video_metadata (.error "mediainfo probe failed")).2 = true := rfl

/-- C5 (amended): the PDF update deletes its staging temp file on every
exit path (success, verification failure and parse exception), and the
video extract deletes its temp on every successful probe; but a probe
exception leaves the video temp file behind. -/
theorem C5_temp_file_cleanup :
    (∀ (parse : Except String (Option (List (String × String))))
       (changes : List (String × String)) (name : String),
       (update_pdf_metadata parse changes name).tmpRemains = false) ∧
    (∀ tracks : List Track, (extract_video_metadata (.ok tracks)).2 = false) := by
  constructor
  · intro parse changes name
    cases parse with
    | error e => rfl
    | ok info0 =>
      simp only [update_pdf_metadata]
      split <;> rfl
  · intro tracks
    rfl

/-! ### Office helper lemmas -/

theorem applyCoreChanges_cons (p : Props) (c : String × String) (rest) :
    applyCoreChanges p (c :: rest) =
      applyCoreChanges (if c.1 ∈ coreAttrNames then aset p c.1 c.2 else p) rest := rfl

theorem officeVerify_ok (u : Props) (changes : List (String × String))
    (h : ∀ kv ∈ changes, pyGetattrD u kv.1 = kv.2) : officeVerify u changes = .ok () := by
  induction changes with
  | nil => rfl
  | cons c rest ih =>
    obtain ⟨k, v⟩ := c
    have hk : pyGetattrD u k = v := h (k, v) (List.mem_cons_self _ _)
    simp only [officeVerify, hk, ne_eq, not_true_eq_false, if_false]
    exact ih fun kv hkv => h kv (List.mem_cons_of_mem _ hkv)

theorem officeVerify_error_of_mismatch (u : Props) (changes : List (String × String))
    (k : String) (v : String) (hmem : (k, v) ∈ changes) (hne : pyGetattrD u k ≠ v) :
    ∃ m, officeVerify u changes = .error m := by
  induction changes with
  | nil => cases hmem
  | cons c rest ih =>
    obtain ⟨k', v'⟩ := c
    by_cases hx : pyGetattrD u k' ≠ v'
    · exact ⟨"Failed to update " ++ k', by simp [officeVerify, hx]⟩
    · rcases List.mem_cons.mp hmem with heq | hrest
      · rw [Prod.mk.injEq] at heq
        obtain ⟨rfl, rfl⟩ := heq
        exact absurd hne hx
      · obtain ⟨m, hm⟩ := ih hrest
        exact ⟨m, by simp only [officeVerify, if_neg hx]; exact hm⟩

theorem officeVerify_error_names (u : Props) (changes : List (String × String)) (m : String)
    (h : officeVerify u changes = .error m) :
    ∃ k v, (k, v) ∈ changes ∧ m = "Failed to update " ++ k ∧ pyGetattrD u k ≠ v := by
  induction changes with
  | nil => simp [officeVerify] at h
  | cons c rest ih =>
    obtain ⟨k', v'⟩ := c
    by_cases hx : pyGetattrD u k' ≠ v'
    · simp only [officeVerify, if_pos hx] at h
      exact ⟨k', v', List.mem_cons_self _ _, (Except.error.inj h).symm, hx⟩
    · simp only [officeVerify, if_neg hx] at h
      obtain ⟨k, v, hmem, hm, hne⟩ := ih h
      exact ⟨k, v, List.mem_cons_of_mem _ hmem, hm, hne⟩

theorem aget_applyCoreChanges_not_attr (changes : List (String × String)) (p : Props)
    (k : String) (hk : k ∉ coreAttrNames) :
    aget (applyCoreChanges p changes) k = aget p k := by
  induction changes generalizing p with
  | nil => rfl
  | cons c rest ih =>
    rw [applyCoreChanges_cons]
    by_cases hc : c.1 ∈ coreAttrNames
    · rw [if_pos hc, ih]
      exact aget_aset_ne _ _ _ _ fun h => hk (h ▸ hc)
    · rw [if_neg hc, ih]

/-- C6 counterexample: on a PDF verification failure the `modified_`
output file is not deleted (only the staging temp is), and the raised
message does not name the mismatched field, refuting the claim for the
PDF adapter. -/
theorem C6_counterexample :
    (update_pdf_metadata (.ok (some [])) [("Title", "")] "doc.pdf").outRemains = true ∧
    (update_pdf_metadata (.ok (some [])) [("Title", "")] "doc.pdf").result =
      .error "Failed to update PDF: Metadata update verification failed" := ⟨rfl, rfl⟩

/-- C6 (amended): for DOCX/PPTX, a post-write verification mismatch
deletes the partial output copy and returns an error record naming the
mismatched field; for PDF, a verification miss raises an exception (so
no path or partial-success value is returned) but the partially-written
output file is left on disk and the message does not name the field. -/
theorem C6_verification_failure :
    (∀ (p : Props) (changes : List (String × String)) (now name m : String),
       officeVerify (aset (applyCoreChanges p changes) "modified" now) changes = .error m →
       update_docx_metadata (.ok ()) p changes now name =
         { result := .errorRec ("DOCX Update Error: " ++ m)
           outRemains := false, saved := none }) ∧
    (∀ (p : Props) (changes : List (String × String)) (now name m : String),
       officeVerify (aset (applyCoreChanges p changes) "modified" now) changes = .error m →
       update_pptx_metadata (.ok ()) p changes now name =
         { result := .errorRec ("PPTX Update Error: " ++ m)
           outRemains := false, saved := none }) ∧
    (∀ (u : Props) (changes : List (String × String)) (m : String),
       officeVerify u changes = .error m →
       ∃ k v, (k, v) ∈ changes ∧ m = "Failed to update " ++ k ∧ pyGetattrD u k ≠ v) ∧
    (∀ (info0 : Option (List (String × String))) (changes : List (String × String))
       (name : String),
       (changes.all fun kv => (aget (pdfApplied info0 changes) kv.1).isSome) = false →
       update_pdf_metadata (.ok info0) changes name =
         { result := .error "Failed to update PDF: Metadata update verification failed"
           tmpRemains := false, outRemains := true
           written := some (pdfApplied info0 changes) }) := by
  refine ⟨?_, ?_, officeVerify_error_names, ?_⟩
  · intro p changes now name m h
    simp only [update_docx_metadata, update_docx_core, h]
  · intro p changes now name m h
    simp only [update_pptx_metadata, update_pptx_core, h]
  · intro info0 changes name h
    simp only [update_pdf_metadata, h, Bool.false_eq_true, if_false]

/-- C6 witness. -/
theorem C6_witness :
    update_docx_metadata (.ok ()) [] [("foo", "X")] "NOW" "r.docx" =
      { result := .errorRec "DOCX Update Error: Failed to update foo"
        outRemains := false, saved := none } ∧
    update_pdf_metadata (.ok (some [])) [("Author", "")] "b.pdf" =
      { result := .error "Failed to update PDF: Metadata update verification failed"
        tmpRemains := false, outRemains := true, written := some [] } :=
  ⟨C6_verification_failure.1 [] [("foo", "X")] "NOW" "r.docx" "Failed to update foo" rfl,
   C6_verification_failure.2.2.2 (some []) [("Author", "")] "b.pdf" rfl⟩

/-- C10: a ChangeSet key that is not a core-properties attribute is
skipped by the apply loop but still checked by the verification loop,
which compares `getattr(..., '')` against the requested value; with a
non-empty requested value the comparison fails, so the call returns an
error record rather than silently ignoring the unknown key — for both
DOCX and PPTX. -/
theorem C10_unknown_key_fails_verification (p : Props) (changes : List (String × String))
    (now name k v : String) (hp : ∀ kv ∈ p, kv.1 ∈ coreAttrNames)
    (hk : (k, v) ∈ changes) (hattr : k ∉ coreAttrNames) (hv : v ≠ "") :
    (∃ m, (update_docx_metadata (.ok ()) p changes now name).result = .errorRec m) ∧
    (∃ m, (update_pptx_metadata (.ok ()) p changes now name).result = .errorRec m) := by
  have hmod : k ≠ "modified" := by
    intro h
    exact hattr (h ▸ (by decide : "modified" ∈ coreAttrNames))
  have hpk : aget p k = none := by
    cases hag : aget p k with
    | none => rfl
    | some x =>
      have hkmem : k ∈ p.map Prod.fst := by
        rw [← aget_isSome_iff_mem, hag]
        rfl
      obtain ⟨kv, hkv, hfst⟩ := List.mem_map.mp hkmem
      exact absurd (hfst ▸ hp kv hkv) hattr
  have hget : pyGetattrD (aset (applyCoreChanges p changes) "modified" now) k = "" := by
    unfold pyGetattrD
    rw [aget_aset_ne _ _ _ _ fun h => hmod h.symm,
      aget_applyCoreChanges_not_attr changes p k hattr, hpk]
    rfl
  have hne : pyGetattrD (aset (applyCoreChanges p changes) "modified" now) k ≠ v := by
    rw [hget]
    exact fun h => hv h.symm
  obtain ⟨m, hm⟩ :=
    officeVerify_error_of_mismatch (aset (applyCoreChanges p changes) "modified" now)
      changes k v hk hne
  constructor
  · exact ⟨"DOCX Update Error: " ++ m, by simp only [update_docx_metadata, update_docx_core, hm]⟩
  · exact ⟨"PPTX Update Error: " ++ m, by simp only [update_pptx_metadata, update_pptx_core, hm]⟩

/-! ### Blank-value lemmas -/

theorem pdfApplied_blank (changes : List (String × String))
    (info0 : Option (List (String × String))) (h : ∀ kv ∈ changes, pyStrip kv.2 = "") :
    pdfApplied info0 changes = info0.getD [] := by
  unfold pdfApplied
  generalize info0.getD [] = m
  induction changes generalizing m with
  | nil => rfl
  | cons c rest ih =>
    have hc : pyStrip c.2 = "" := h c (List.mem_cons_self _ _)
    have hcond : (c.2 != "" && pyStrip c.2 != "") = false := by
      rw [hc]
      simp
    simp only [List.foldl_cons, hcond, Bool.false_eq_true, if_false]
    exact ih (fun kv hkv => h kv (List.mem_cons_of_mem _ hkv)) m

theorem applyExifChanges_blank (changes : List (String × String)) (d : ExifDict)
    (h : ∀ kv ∈ changes, kv.2 = "") : applyExifChanges d changes = d := by
  unfold applyExifChanges
  induction changes generalizing d with
  | nil => rfl
  | cons c rest ih =>
    have hc : c.2 = "" := h c (List.mem_cons_self _ _)
    have hstep : stepExif d c = d := by
      unfold stepExif
      rw [hc]
      rfl
    rw [List.foldl_cons, hstep]
    exact ih d fun kv hkv => h kv (List.mem_cons_of_mem _ hkv)

theorem aget_applyCoreChanges_blank (changes : List (String × String)) (p : Props)
    (k : String) (h : ∀ kv ∈ changes, kv.2 = "") (hk : k ∈ coreAttrNames) :
    aget (applyCoreChanges p changes) k =
      if changes.any (fun kv => kv.1 == k) then some "" else aget p k := by
  induction changes generalizing p with
  | nil => rfl
  | cons c rest ih =>
    rw [applyCoreChanges_cons,
      ih _ (fun kv hkv => h kv (List.mem_cons_of_mem _ hkv)), List.any_cons]
    by_cases hany : rest.any (fun kv => kv.1 == k) = true
    · simp [hany]
    · have hany' : rest.any (fun kv => kv.1 == k) = false :=
        Bool.not_eq_true _ ▸ eq_false_of_ne_true hany
      by_cases hkk : c.1 = k
      · have hc2 : c.2 = "" := h c (List.mem_cons_self _ _)
        have hattr : c.1 ∈ coreAttrNames := hkk ▸ hk
        rw [hany', if_pos hattr, hkk, hc2]
        simp
      · have hbk : (c.1 == k) = false := beq_eq_false_iff_ne.mpr hkk
        rw [hany', hbk]
        simp only [Bool.false_or, Bool.false_eq_true, if_false]
        by_cases hattr : c.1 ∈ coreAttrNames
        · rw [if_pos hattr, aget_aset_ne _ _ _ _ hkk]
        · rw [if_neg hattr]

/-- C3 counterexample: applying an all-blank ChangeSet to a DOCX whose
title is "Old" succeeds and writes the blank value, clearing the title
instead of leaving it unchanged, refuting the claim for DOCX/PPTX. -/
theorem C3_counterexample :
    (update_docx_metadata (.ok ()) [("title", "Old")] [("title", "")] "NOW" "r.docx").saved =
      some [("title", ""), ("modified", "NOW")] ∧
    aget [("title", "Old")] "title" = some "Old" := ⟨rfl, rfl⟩

/-- C3 (amended): an all-blank ChangeSet leaves every PDF info entry
and every image EXIF tag unchanged (blank values are skipped there);
for DOCX/PPTX the blank values are written — each targeted
core property is cleared to the empty string — and the
modified-timestamp is stamped to now. -/
theorem C3_blank_changeset :
    (∀ (info0 : Option (List (String × String))) (changes : List (String × String))
       (name : String), (∀ kv ∈ changes, pyStrip kv.2 = "") →
       (update_pdf_metadata (.ok info0) changes name).written = some (info0.getD [])) ∧
    (∀ (d : ExifDict) (changes : List (String × String)), (∀ kv ∈ changes, kv.2 = "") →
       update_image_metadata (.ok d) (.ok ()) changes = .ok ("tmp_out", d)) ∧
    (∀ (p : Props) (changes : List (String × String)) (now name : String),
       (∀ kv ∈ changes, kv.2 = "") →
       (∀ kv ∈ changes, kv.1 ∈ coreAttrNames ∧ kv.1 ≠ "modified") →
       ∃ p2, (update_docx_metadata (.ok ()) p changes now name).saved = some p2 ∧
         (∀ kv ∈ changes, aget p2 kv.1 = some "") ∧ aget p2 "modified" = some now) ∧
    (∀ (p : Props) (changes : List (String × String)) (now name : String),
       (∀ kv ∈ changes, kv.2 = "") →
       (∀ kv ∈ changes, kv.1 ∈ coreAttrNames ∧ kv.1 ≠ "modified") →
       ∃ p2, (update_pptx_metadata (.ok ()) p changes now name).saved = some p2 ∧
         (∀ kv ∈ changes, aget p2 kv.1 = some "") ∧ aget p2 "modified" = some now) := by
  have office : ∀ (p : Props) (changes : List (String × String)) (now : String),
      (∀ kv ∈ changes, kv.2 = "") →
      (∀ kv ∈ changes, kv.1 ∈ coreAttrNames ∧ kv.1 ≠ "modified") →
      (∀ kv ∈ changes,
         aget (aset (applyCoreChanges p changes) "modified" now) kv.1 = some "") ∧
      officeVerify (aset (applyCoreChanges p changes) "modified" now) changes = .ok () := by
    intro p changes now hb hkeys
    have hvals : ∀ kv ∈ changes,
        aget (aset (applyCoreChanges p changes) "modified" now) kv.1 = some "" := by
      intro kv hkv
      obtain ⟨hattr, hmod⟩ := hkeys kv hkv
      rw [aget_aset_ne _ _ _ _ fun h => hmod h.symm,
        aget_applyCoreChanges_blank changes p kv.1 hb hattr,
        if_pos (List.any_eq_true.mpr ⟨kv, hkv, by simp⟩)]
    refine ⟨hvals, officeVerify_ok _ _ ?_⟩
    intro kv hkv
    unfold pyGetattrD
    rw [hvals kv hkv]
    exact (hb kv hkv).symm
  refine ⟨?_, ?_, ?_, ?_⟩
  · intro info0 changes name hb
    have hpa := pdfApplied_blank changes info0 hb
    simp only [update_pdf_metadata]
    split <;> simp [hpa]
  · intro d changes hb
    simp only [update_image_metadata, applyExifChanges_blank changes d hb]
  · intro p changes now name hb hkeys
    obtain ⟨hvals, hver⟩ := office p changes now hb hkeys
    exact ⟨aset (applyCoreChanges p changes) "modified" now,
      by simp only [update_docx_metadata, update_docx_core, hver],
      hvals, aget_aset_self _ _ _⟩
  · intro p changes now name hb hkeys
    obtain ⟨hvals, hver⟩ := office p changes now hb hkeys
    exact ⟨aset (applyCoreChanges p changes) "modified" now,
      by simp only [update_pptx_metadata, update_pptx_core, hver],
      hvals, aget_aset_self _ _ _⟩

/-- C3 witness. -/
theorem C3_witness :
    (update_pdf_metadata (.ok (some [("Author", "A")])) [("Author", " ")] "a.pdf").written =
      some [("Author", "A")] ∧
    update_image_metadata (.ok ⟨[(271, utf8 "Canon")], []⟩) (.ok ()) [("Make", "")] =
      .ok ("tmp_out", ⟨[(271, utf8 "Canon")], []⟩) ∧
    (∃ p2, (update_docx_metadata (.ok ()) [("title", "Old")] [("title", "")] "NOW2"
        "w.docx").saved = some p2 ∧
      (∀ kv ∈ [("title", "")], aget p2 kv.1 = some "") ∧ aget p2 "modified" = some "NOW2") :=
  ⟨C3_blank_changeset.1 (some [("Author", "A")]) [("Author", " ")] "a.pdf" (by decide),
   C3_blank_changeset.2.1 ⟨[(271, utf8 "Canon")], []⟩ [("Make", "")] (by decide),
   C3_blank_changeset.2.2.1 [("title", "Old")] [("title", "")] "NOW2" "w.docx"
     (by decide) (by decide)⟩

/-! ### EXIF routing lemmas (for C7) -/

/-- The value the apply loop ends up writing for a given key: the last
change entry for that key with a non-blank value, if any. -/
def writtenVal : List (String × String) → String → Option String
  | [], _ => none
  | kv :: rest, key =>
    match writtenVal rest key with
    | some w => some w
    | none => if kv.1 = key ∧ kv.2 ≠ "" then some kv.2 else none

theorem writtenVal_cons (a b : String) (rest : List (String × String)) (key : String) :
    writtenVal ((a, b) :: rest) key =
      match writtenVal rest key with
      | some w => some w
      | none => if a = key ∧ b ≠ "" then some b else none := rfl

theorem writtenVal_cons_ne (rest : List (String × String)) (a b key : String)
    (h : a ≠ key) : writtenVal ((a, b) :: rest) key = writtenVal rest key := by
  rw [writtenVal_cons]
  cases writtenVal rest key with
  | none => simp [h]
  | some w => rfl

theorem applyExifChanges_cons (d : ExifDict) (c : String × String) (rest) :
    applyExifChanges d (c :: rest) = applyExifChanges (stepExif d c) rest := rfl

theorem tag_map_eq (k : String) (t : Nat) (h : aget tag_map k = some t) :
    (k = "Make" ∧ t = 271) ∨ (k = "Model" ∧ t = 272) ∨ (k = "Software" ∧ t = 305) ∨
    (k = "DateTime" ∧ t = 306) ∨ (k = "DateTimeOriginal" ∧ t = 36867) ∨
    (k = "Artist" ∧ t = 315) ∨ (k = "Copyright" ∧ t = 33432) ∨
    (k = "ImageDescription" ∧ t = 270) := by
  simp only [tag_map, aget] at h
  split_ifs at h <;> simp_all [eq_comm]

theorem stepExif_blank (acc : ExifDict) (k : String) : stepExif acc (k, "") = acc := rfl

theorem stepExif_notag (acc : ExifDict) (k v : String) (h : aget tag_map k = none) :
    stepExif acc (k, v) = acc := by
  unfold stepExif
  rw [h]
  split <;> rfl

theorem stepExif_dto (acc : ExifDict) (v : String) (hv : v ≠ "") :
    stepExif acc ("DateTimeOriginal", v) =
      { acc with exifIFD := aset acc.exifIFD 36867 (utf8 v) } := by
  have hb : (v != "") = true := bne_iff_ne.mpr hv
  unfold stepExif
  rw [hb]
  rfl

theorem stepExif_other (acc : ExifDict) (k v : String) (tag : Nat) (hv : v ≠ "")
    (htag : aget tag_map k = some tag) (hk : k ≠ "DateTimeOriginal") :
    stepExif acc (k, v) = { acc with zeroth := aset acc.zeroth tag (utf8 v) } := by
  have hb : (v != "") = true := bne_iff_ne.mpr hv
  unfold stepExif
  rw [hb, htag]
  simp [hk]

/-- C7: in the image apply loop, a non-blank `DateTimeOriginal` is
written — UTF-8-encoded — into the capture-time (Exif) IFD and never
into the primary-image (0th) IFD, while every other editable field is
written into the 0th IFD; tags outside the respective editable sets are
untouched, so after the write the `DateTimeOriginal` value lives only in
the capture-time sub-structure. -/
theorem C7_datetimeoriginal_routing (d : ExifDict) (changes : List (String × String)) :
    (aget (applyExifChanges d changes).exifIFD 36867 =
       match writtenVal changes "DateTimeOriginal" with
       | some v => some (utf8 v)
       | none => aget d.exifIFD 36867) ∧
    (∀ t : Nat, t ≠ 36867 →
       aget (applyExifChanges d changes).exifIFD t = aget d.exifIFD t) ∧
    (∀ (k : String) (tag : Nat), aget tag_map k = some tag → k ≠ "DateTimeOriginal" →
       aget (applyExifChanges d changes).zeroth tag =
         match writtenVal changes k with
         | some v => some (utf8 v)
         | none => aget d.zeroth tag) ∧
    (∀ t : Nat, t ∉ [271, 272, 305, 306, 315, 33432, 270] →
       aget (applyExifChanges d changes).zeroth t = aget d.zeroth t) := by
  induction changes generalizing d with
  | nil => exact ⟨rfl, fun t ht => rfl, fun k tag htag hk => rfl, fun t ht => rfl⟩
  | cons c rest ih =>
    obtain ⟨k0, v0⟩ := c
    by_cases hv : v0 = ""
    · subst hv
      rw [applyExifChanges_cons, stepExif_blank]
      obtain ⟨ih1, ih2, ih3, ih4⟩ := ih d
      have hwv : ∀ key, writtenVal ((k0, "") :: rest) key = writtenVal rest key := by
        intro key
        rw [writtenVal_cons]
        cases writtenVal rest key with
        | none => simp
        | some w => rfl
      exact ⟨by rw [hwv]; exact ih1, ih2,
        fun k tag ht hk => by rw [hwv]; exact ih3 k tag ht hk, ih4⟩
    · cases htag : aget tag_map k0 with
      | none =>
        rw [applyExifChanges_cons, stepExif_notag d k0 v0 htag]
        obtain ⟨ih1, ih2, ih3, ih4⟩ := ih d
        have hdto : k0 ≠ "DateTimeOriginal" := by
          intro h
          rw [h] at htag
          exact absurd htag (by decide)
        refine ⟨?_, ih2, ?_, ih4⟩
        · rw [writtenVal_cons_ne rest k0 v0 _ hdto]
          exact ih1
        · intro k tag ht hk
          have hk0 : k0 ≠ k := by
            intro h
            rw [h, ht] at htag
            cases htag
          rw [writtenVal_cons_ne rest k0 v0 _ hk0]
          exact ih3 k tag ht hk
      | some tag0 =>
        by_cases hdto : k0 = "DateTimeOriginal"
        · subst hdto
          have htag0 : tag0 = 36867 := by
            have h36 : aget tag_map "DateTimeOriginal" = some 36867 := rfl
            rw [h36] at htag
            exact (Option.some.inj htag).symm
          subst htag0
          rw [applyExifChanges_cons, stepExif_dto d v0 hv]
          obtain ⟨ih1, ih2, ih3, ih4⟩ :=
            ih { d with exifIFD := aset d.exifIFD 36867 (utf8 v0) }
          refine ⟨?_, ?_, ?_, ih4⟩
          · rw [ih1, writtenVal_cons]
            cases writtenVal rest "DateTimeOriginal" with
            | some w => rfl
            | none => simp [hv]
          · intro t ht
            rw [ih2 t ht]
            exact aget_aset_ne _ _ _ _ fun h => ht h.symm
          · intro k tag ht hk
            rw [ih3 k tag ht hk, writtenVal_cons_ne rest _ v0 _ fun h => hk h.symm]
        · rw [applyExifChanges_cons, stepExif_other d k0 v0 tag0 hv htag hdto]
          obtain ⟨ih1, ih2, ih3, ih4⟩ :=
            ih { d with zeroth := aset d.zeroth tag0 (utf8 v0) }
          have htag0mem : tag0 ∈ [271, 272, 305, 306, 315, 33432, 270] := by
            rcases tag_map_eq k0 tag0 htag with ⟨h, rfl⟩ | ⟨h, rfl⟩ | ⟨h, rfl⟩ |
              ⟨h, rfl⟩ | ⟨h, rfl⟩ | ⟨h, rfl⟩ | ⟨h, rfl⟩ | ⟨h, rfl⟩
            · decide
            · decide
            · decide
            · decide
            · exact absurd h hdto
            · decide
            · decide
            · decide
          refine ⟨?_, ?_, ?_, ?_⟩
          · rw [ih1, writtenVal_cons_ne rest k0 v0 _ hdto]
          · intro t ht
            exact ih2 t ht
          · intro k tag ht hk
            rw [ih3 k tag ht hk]
            by_cases hkk : k0 = k
            · subst hkk
              have htt : tag = tag0 := by
                rw [htag] at ht
                exact (Option.some.inj ht).symm
              subst htt
              rw [writtenVal_cons]
              cases writtenVal rest k0 with
              | some w => rfl
              | none => simp [hv]
            · have hne : tag0 ≠ tag := by
                intro h
                subst h
                rcases tag_map_eq k0 tag0 htag with ⟨hk1, ht1⟩ | ⟨hk1, ht1⟩ | ⟨hk1, ht1⟩ |
                  ⟨hk1, ht1⟩ | ⟨hk1, ht1⟩ | ⟨hk1, ht1⟩ | ⟨hk1, ht1⟩ | ⟨hk1, ht1⟩ <;>
                  rcases tag_map_eq k tag0 ht with ⟨hk2, ht2⟩ | ⟨hk2, ht2⟩ | ⟨hk2, ht2⟩ |
                    ⟨hk2, ht2⟩ | ⟨hk2, ht2⟩ | ⟨hk2, ht2⟩ | ⟨hk2, ht2⟩ | ⟨hk2, ht2⟩ <;>
                  first
                    | (exact hkk (hk1.trans hk2.symm))
                    | (rw [ht1] at ht2; cases ht2)
              rw [writtenVal_cons_ne rest k0 v0 _ hkk]
              cases writtenVal rest k with
              | some w => rfl
              | none => exact aget_aset_ne _ _ _ _ hne
          · intro t htl
            rw [ih4 t htl]
            exact aget_aset_ne _ _ _ _ fun h => htl (h ▸ htag0mem)

/-- C7 witness. -/
theorem C7_witness :
    aget (applyExifChanges ⟨[], []⟩
        [("DateTimeOriginal", "2024:01:01 00:00:00"), ("Make", "Canon")]).exifIFD 36867 =
      some (utf8 "2024:01:01 00:00:00") ∧
    aget (applyExifChanges ⟨[], []⟩
        [("DateTimeOriginal", "2024:01:01 00:00:00"), ("Make", "Canon")]).zeroth 271 =
      some (utf8 "Canon") ∧
    aget (applyExifChanges ⟨[], []⟩
        [("DateTimeOriginal", "2024:01:01 00:00:00"), ("Make", "Canon")]).zeroth 36867 =
      none := by
  refine ⟨?_, ?_, ?_⟩
  · rw [(C7_datetimeoriginal_routing ⟨[], []⟩ _).1]
    rfl
  · rw [(C7_datetimeoriginal_routing ⟨[], []⟩ _).2.2.1 "Make" 271 rfl (by decide)]
    rfl
  · rw [(C7_datetimeoriginal_routing ⟨[], []⟩ _).2.2.2 36867 (by decide)]
    rfl

/-! ### Video grouping lemmas (for C8) -/

/-- The step of the video metadata loop:
`metadata[track.track_type] = track_info`. -/
def videoStep (m : List (String × List (String × MVal))) (t : Track) :
    List (String × List (String × MVal)) :=
  aset m t.track_type (t.fields.filter fun f => f.2.truthy)

/-- The non-empty fields of the last track of a given type, if any —
the value the dictionary ends up holding for that type. -/
def lastTrackFields : List Track → String → Option (List (String × MVal))
  | [], _ => none
  | t :: rest, ty =>
    match lastTrackFields rest ty with
    | some f => some f
    | none =>
      if t.track_type = ty then some (t.fields.filter fun f => f.2.truthy) else none

/-- The distinct track types in order of first occurrence, continuing
from an accumulator of already-present keys. -/
def typeKeysAux : List String → List Track → List String
  | ks, [] => ks
  | ks, t :: rest =>
    typeKeysAux (if t.track_type ∈ ks then ks else ks ++ [t.track_type]) rest

theorem video_fold_aget (ts : List Track) :
    ∀ (m : List (String × List (String × MVal))) (ty : String),
      aget (ts.foldl videoStep m) ty =
        match lastTrackFields ts ty with
        | some f => some f
        | none => aget m ty := by
  induction ts with
  | nil => intro m ty; rfl
  | cons t rest ih =>
    intro m ty
    rw [List.foldl_cons, ih, lastTrackFields]
    cases lastTrackFields rest ty with
    | some f => rfl
    | none =>
      by_cases hty : t.track_type = ty
      · rw [if_pos hty]
        unfold videoStep
        rw [hty]
        exact aget_aset_self _ _ _
      · rw [if_neg hty]
        exact aget_aset_ne _ _ _ _ hty

theorem video_fold_keys (ts : List Track) :
    ∀ m : List (String × List (String × MVal)),
      (ts.foldl videoStep m).map Prod.fst = typeKeysAux (m.map Prod.fst) ts := by
  induction ts with
  | nil => intro m; rfl
  | cons t rest ih =>
    intro m
    rw [List.foldl_cons, ih, typeKeysAux]
    congr 1
    unfold videoStep
    rw [map_fst_aset]

/-- C8 counterexample: two tracks of the same type (a file with two
audio streams) produce a single metadata group — the later track
overwrites the earlier one under the shared `track_type` key — refuting
"exactly one metadata group per track". -/
theorem C8_counterexample :
    (extract_video_metadata (.ok
        [⟨"Audio", [("bit_rate", .str "128")]⟩,
         ⟨"Audio", [("channels", .str "2")]⟩])).1 =
      .groups [("Audio", [("channels", .str "2")])] ∧
    [(⟨"Audio", [("bit_rate", .str "128")]⟩ : Track),
     ⟨"Audio", [("channels", .str "2")]⟩].length = 2 := ⟨rfl, rfl⟩

/-- C8 (amended): on a successful probe, video extraction produces one
metadata group per *distinct* track type, in order of first occurrence;
the group of a type holds exactly the truthy-valued fields of the
*last* probed track of that type. -/
theorem C8_video_track_groups :
    ∀ tracks : List Track,
      ∃ m, extract_video_metadata (.ok tracks) = (.groups m, false) ∧
        m.map Prod.fst = typeKeysAux [] tracks ∧
        ∀ ty, aget m ty = lastTrackFields tracks ty := by
  intro tracks
  refine ⟨tracks.foldl videoStep [], rfl, video_fold_keys tracks [], ?_⟩
  intro ty
  rw [video_fold_aget tracks [] ty]
  cases lastTrackFields tracks ty with
  | some f => rfl
  | none => rfl

/-- C9 counterexample: with a truthy basic field and a non-empty but
malformed GPS sub-dictionary, `parse_gps` raises a `KeyError` that
propagates out of `format_metadata`, so no two-group mapping is
returned at all, refuting the claim as a universal statement. -/
theorem C9_counterexample :
    format_metadata [("Make", .str "Canon"), ("GPSInfo", .dict [("foo", .int 1)])] =
      .error "KeyError: GPSLatitude" := rfl

/-- C9 (amended): whenever `parse_gps` does not raise on the GPS
sub-group — in particular always when no basic key is truthy —
`format_metadata` returns a mapping with exactly the two group keys
"Basic Info" and "GPS Info", and the "GPS Info" group is `None`
whenever no basic key is truthy or the GPS sub-group is falsy
(empty or absent). -/
theorem C9_format_two_groups (raw : List (String × MVal))
    (h : (parse_gps (pyGetD raw "GPSInfo" (.dict []))).isOk = true ∨
      anyBasicTruthy raw = false) :
    ∃ b g, format_metadata raw = .ok [("Basic Info", b), ("GPS Info", g)] ∧
      ((anyBasicTruthy raw = false ∨ (pyGetD raw "GPSInfo" (.dict [])).truthy = false) →
        g = .noneG) := by
  by_cases hb : anyBasicTruthy raw = true
  · have hok : (parse_gps (pyGetD raw "GPSInfo" (.dict []))).isOk = true := by
      rcases h with h | h
      · exact h
      · rw [hb] at h
        cases h
    cases hg : parse_gps (pyGetD raw "GPSInfo" (.dict [])) with
    | error e =>
      rw [hg] at hok
      cases hok
    | ok og =>
      cases og with
      | some g0 =>
        refine ⟨FmtGroup.fields
            [("Make", pyGet raw "Make"), ("Model", pyGet raw "Model"),
             ("Software", pyGet raw "Software"), ("DateTime", pyGet raw "DateTime"),
             ("DateTimeOriginal", pyGet raw "DateTimeOriginal")],
          FmtGroup.gps g0, ?_, ?_⟩
        · unfold format_metadata
          rw [if_pos hb]
          simp only [hg]
        · intro hcond
          rcases hcond with h1 | h2
          · rw [hb] at h1
            cases h1
          · have hnone : parse_gps (pyGetD raw "GPSInfo" (.dict [])) = .ok none := by
              unfold parse_gps
              rw [if_pos h2]
            rw [hnone] at hg
            cases Except.ok.inj hg
      | none =>
        refine ⟨FmtGroup.fields
            [("Make", pyGet raw "Make"), ("Model", pyGet raw "Model"),
             ("Software", pyGet raw "Software"), ("DateTime", pyGet raw "DateTime"),
             ("DateTimeOriginal", pyGet raw "DateTimeOriginal")],
          FmtGroup.noneG, ?_, fun _ => rfl⟩
        unfold format_metadata
        rw [if_pos hb]
        simp only [hg]
  · have hb' : anyBasicTruthy raw = false := eq_false_of_ne_true hb
    refine ⟨FmtGroup.fields
        [("Format", pyGet raw "Format"), ("Mode", pyGet raw "Mode"),
         ("Size", match pyGet raw "Size" with
                  | .tup [a, b] => .str (a.pystr ++ " x " ++ b.pystr)
                  | _ => .null)],
      FmtGroup.noneG, ?_, fun _ => rfl⟩
    unfold format_metadata
    rw [if_neg hb]

/-- C9 witness. -/
theorem C9_witness :
    ∃ b g, format_metadata [] = .ok [("Basic Info", b), ("GPS Info", g)] ∧
      ((anyBasicTruthy [] = false ∨ (pyGetD [] "GPSInfo" (.dict [])).truthy = false) →
        g = .noneG) :=
  C9_format_two_groups [] (Or.inr rfl)

/-- C10 witness. -/
theorem C10_witness :
    (∃ m, (update_docx_metadata (.ok ()) [] [("foo", "X")] "NOW" "r.docx").result =
       .errorRec m) ∧
    (∃ m, (update_pptx_metadata (.ok ()) [] [("foo", "X")] "NOW" "r.pptx").result =
       .errorRec m) :=
  ⟨(C10_unknown_key_fails_verification [] [("foo", "X")] "NOW" "r.docx" "foo" "X"
      (by simp) (List.mem_singleton.mpr rfl) (by decide) (by decide)).1,
   (C10_unknown_key_fails_verification [] [("foo", "X")] "NOW" "r.pptx" "foo" "X"
      (by simp) (List.mem_singleton.mpr rfl) (by decide) (by decide)).2⟩

end TagIt
